import Mathlib

/-!
Shallow embedding of the ksicht core data model and its operations
(src/ksicht/core/models.py), used to check the Results and Eligibility Engine
specification.

Conventions of the embedding:

* Primary keys are natural numbers.
* Dates and datetimes are integers; only their ordering is ever used.
* A score is a DecimalField with two decimal places; it is represented exactly
  as an integer count of hundredths, which preserves ordering and addition.
* The series ordinal is stored by Django as a one character string drawn from
  "1".."4"; comparison of those strings coincides with numeric comparison, so
  the ordinal is a Nat here.
* A Django query set is a list in database order; filters preserve that order.
* Python sorted is a stable sort; List.insertionSort with the corresponding
  reflexive total relation implements exactly that specification.
-/

namespace Ksicht

structure Grade where
  pk : Nat
  school_year : String
  start_date : Int
  end_date : Int
deriving DecidableEq

structure GradeSeries where
  pk : Nat
  grade : Nat
  series : Nat
  submission_deadline : Int
  task_file : Option String
  results_published : Bool
deriving DecidableEq

structure Task where
  pk : Nat
  series : Nat
  title : String
  points : Nat
deriving DecidableEq

structure GradeApplication where
  pk : Nat
  grade : Nat
deriving DecidableEq

structure TaskSolutionSubmission where
  application : Nat
  task : Nat
  score : Option Int
deriving DecidableEq

structure Sticker where
  pk : Nat
  nr : Nat
deriving DecidableEq

/-- The database contents relevant to the engine. -/
structure DB where
  grades : List Grade
  series : List GradeSeries
  tasks : List Task
  applications : List GradeApplication
  submissions : List TaskSolutionSubmission
  stickers : List Sticker
deriving DecidableEq

/-- Python: self.task_file is not None.  Django resolves attribute access on a
FileField through a descriptor that always returns a FieldFile wrapper object
and never the Python None, even when the underlying column is NULL, so this
test is identically true.  The argument is the stored file name, none when the
column is NULL. -/
def taskFileIsNotNone (_tf : Option String) : Bool := true

/-- GradeSeries.accepts_solution_submissions; now stands for datetime.now. -/
def accepts_solution_submissions (s : GradeSeries) (now : Int) : Bool :=
  taskFileIsNotNone s.task_file && decide (now < s.submission_deadline)

/-- The specification reading of accepting submissions: a task file attachment
is present and the deadline is strictly in the future. -/
def specAcceptsSubmissions (s : GradeSeries) (now : Int) : Bool :=
  s.task_file.isSome && decide (now < s.submission_deadline)

/-- The overlap test from Grade.full_clean: an existing grade o matches when
o.start_date <= g.start_date <= o.end_date or
o.start_date <= g.end_date <= o.end_date. -/
def overlapQ (o g : Grade) : Bool :=
  (decide (o.start_date ≤ g.start_date) && decide (g.start_date ≤ o.end_date))
    || (decide (o.start_date ≤ g.end_date) && decide (g.end_date ≤ o.end_date))

/-- Grade.full_clean, lookup part: the conflicting grade reported by first(),
if any.  A query set without explicit order_by follows the model Meta
ordering, which for Grade is descending end_date. -/
def full_clean_conflict (existing : List Grade) (g : Grade) : Option Grade :=
  (List.insertionSort (fun g1 g2 => g2.end_date ≤ g1.end_date)
      ((existing.filter (fun o => overlapQ o g)).filter
        (fun o => decide (o.pk ≠ g.pk)))).head?

/-- Grade.full_clean: raises ValidationError naming the conflicting grade. -/
def full_clean (existing : List Grade) (g : Grade) : Except String Unit :=
  match full_clean_conflict existing g with
  | some c => Except.error ("Datum konani se prekryva s rocnikem " ++ c.school_year)
  | none => Except.ok ()

/-- Two closed date ranges overlap; the wording of the claim. -/
def rangesOverlap (g1 g2 : Grade) : Prop :=
  g1.start_date ≤ g2.end_date ∧ g2.start_date ≤ g1.end_date

/-- Grade.get_current_series: keep the grade series that accept solution
submissions, sort them by submission_deadline ascending, take the head. -/
def get_current_series (db : DB) (g : Grade) (now : Int) : Option GradeSeries :=
  (List.insertionSort (fun s1 s2 => s1.submission_deadline ≤ s2.submission_deadline)
      ((db.series.filter (fun s => decide (s.grade = g.pk))).filter
        (fun s => accepts_solution_submissions s now))).head?

/-- One row of scoring_dict in GradeSeries.calculate_results.  by_tasks is a
Python dict whose keys are the values produced by _find_task, either a task of
the series (represented by its pk) or Python None when the lookup failed. -/
structure ScoreRow where
  app : GradeApplication
  by_tasks : List (Option Nat × Option Int)
  total : Int
deriving DecidableEq

structure SeriesResults where
  max_score : Option Nat
  listing : List ScoreRow
deriving DecidableEq

/-- Python dict assignment d[k] = v: replace in place when the key is present,
append at the end otherwise. -/
def dictInsert (k : Option Nat) (v : Option Int) :
    List (Option Nat × Option Int) → List (Option Nat × Option Int)
  | [] => [(k, v)]
  | (k0, v0) :: rest =>
      if k0 = k then (k, v) :: rest else (k0, v0) :: dictInsert k v rest

/-- The fresh value of one scoring_dict entry. -/
def initRow (tasks : List Task) (a : GradeApplication) : ScoreRow :=
  ScoreRow.mk a (tasks.map (fun t => (some t.pk, none))) 0

/-- One step of the scoring_dict comprehension.  Application objects hash and
compare by pk, so a duplicate pk keeps the first entry; the overwriting value
is the identical fresh initial row. -/
def initStep (tasks : List Task) (d : List ScoreRow) (a : GradeApplication) : List ScoreRow :=
  if d.any (fun r => decide (r.app.pk = a.pk)) then d else d ++ [initRow tasks a]

/-- The scoring_dict comprehension over the applications of the grade. -/
def dictInit (tasks : List Task) (apps : List GradeApplication) : List ScoreRow :=
  apps.foldl (initStep tasks) []

/-- Python: s.score or 0.  An absent score contributes 0; a zero decimal is
falsy and is likewise replaced by the integer 0, the same value. -/
def scoreOr0 (sc : Option Int) : Int := sc.getD 0

/-- The body of the submission loop of GradeSeries.calculate_results.  The
none branch of _find_application is unreachable there, because the submissions
are filtered to applications of the grade; in Python it would raise KeyError. -/
def stepSubmission (apps : List GradeApplication) (tasks : List Task)
    (d : List ScoreRow) (s : TaskSolutionSubmission) : List ScoreRow :=
  match apps.find? (fun a => decide (a.pk = s.application)) with
  | none => d
  | some a =>
      d.map (fun r =>
        if r.app.pk = a.pk then
          ScoreRow.mk r.app
            (dictInsert ((tasks.find? (fun t => decide (t.pk = s.task))).map Task.pk)
              s.score r.by_tasks)
            (r.total + scoreOr0 s.score)
        else r)

/-- The submission filter of calculate_results:
application__grade = self.grade and task__series__series <= self.series.
The joins resolve foreign keys by first match; a row whose joins do not
resolve is excluded, as in SQL. -/
def submissionInScope (db : DB) (S : GradeSeries) (s : TaskSolutionSubmission) : Bool :=
  (match db.applications.find? (fun a => decide (a.pk = s.application)) with
   | some a => decide (a.grade = S.grade)
   | none => false)
  &&
  (match db.tasks.find? (fun t => decide (t.pk = s.task)) with
   | some t =>
       match db.series.find? (fun ser => decide (ser.pk = t.series)) with
       | some ser => decide (ser.series ≤ S.series)
       | none => false
   | none => false)

/-- The task filter of the max_score aggregate:
series__grade = self.grade and series__series <= self.series. -/
def taskUpTo (db : DB) (S : GradeSeries) (t : Task) : Bool :=
  match db.series.find? (fun ser => decide (ser.pk = t.series)) with
  | some ser => decide (ser.grade = S.grade) && decide (ser.series ≤ S.series)
  | none => false

def tasksUpTo (db : DB) (S : GradeSeries) : List Task :=
  db.tasks.filter (taskUpTo db S)

/-- The Sum aggregate over Task.points: the SQL SUM of an empty query set is
NULL, surfaced by Django as None. -/
def maxScore (db : DB) (S : GradeSeries) : Option Nat :=
  let pts := (tasksUpTo db S).map Task.points
  if pts.isEmpty then none else some pts.sum

/-- GradeSeries.calculate_results. -/
def calculate_results (db : DB) (S : GradeSeries) : SeriesResults :=
  let applications := db.applications.filter (fun a => decide (a.grade = S.grade))
  let tasks := db.tasks.filter (fun t => decide (t.series = S.pk))
  let submissions := db.submissions.filter (submissionInScope db S)
  let d := submissions.foldl (stepSubmission applications tasks) (dictInit tasks applications)
  SeriesResults.mk (maxScore db S)
    (List.insertionSort (fun r1 r2 => r2.total ≤ r1.total) d)

/-- The specification value of the maximum possible score: the plain sum of
points over the tasks of the grade up to the series ordinal. -/
def specMaxScore (db : DB) (S : GradeSeries) : Nat :=
  ((tasksUpTo db S).map Task.points).sum

/-- The specification condition for a submission to count towards the running
total of the application with primary key p. -/
def submissionCountsFor (db : DB) (S : GradeSeries) (p : Nat)
    (s : TaskSolutionSubmission) : Bool :=
  decide (s.application = p) &&
    (match db.tasks.find? (fun t => decide (t.pk = s.task)) with
     | some t => taskUpTo db S t
     | none => false)

/-- The specification running total of an application: scores of its
submissions for tasks of the grade up to the series ordinal, an unscored
submission counting as 0. -/
def specTotal (db : DB) (S : GradeSeries) (p : Nat) : Int :=
  ((db.submissions.filter (submissionCountsFor db S p)).map
      (fun s => scoreOr0 s.score)).sum

/-- Referential sanity of one submission: when its application, its task and
the series of that task all resolve, the task belongs to the same grade as the
application.  Submissions are created only through views outside src, which
tie a submission to a task of the grade of the application. -/
def submissionGradeConsistent (db : DB) (s : TaskSolutionSubmission) : Bool :=
  match db.applications.find? (fun a => decide (a.pk = s.application)),
        db.tasks.find? (fun t => decide (t.pk = s.task)) with
  | some a, some t =>
      (match db.series.find? (fun ser => decide (ser.pk = t.series)) with
       | some ser => decide (ser.grade = a.grade)
       | none => true)
  | _, _ => true

/-- The contribution test realized by one pass of the submission loop for the
row keyed by application pk p. -/
def hitsApp (apps : List GradeApplication) (p : Nat)
    (s : TaskSolutionSubmission) : Bool :=
  match apps.find? (fun a => decide (a.pk = s.application)) with
  | some a => decide (a.pk = p)
  | none => false

/-- The amount accumulated into the row keyed by application pk p when the
submission loop runs over ss. -/
def codeTotal (apps : List GradeApplication) (ss : List TaskSolutionSubmission)
    (p : Nat) : Int :=
  ((ss.filter (hitsApp apps p)).map (fun s => scoreOr0 s.score)).sum

/-- Python dict assignment for the sticker number dictionary. -/
def dictInsertSticker (d : List (Nat × Sticker)) (s : Sticker) : List (Nat × Sticker) :=
  match d with
  | [] => [(s.nr, s)]
  | (k, v) :: rest =>
      if k = s.nr then (s.nr, s) :: rest else (k, v) :: dictInsertSticker rest s

/-- The dict comprehension over the filtered sticker query set: a later row
with the same number overwrites an earlier one. -/
def stickersByNr (l : List Sticker) : List (Nat × Sticker) :=
  l.foldl dictInsertSticker []

/-- Python dict lookup: the unique entry of the key, if present. -/
def dictLookup : List (Nat × Sticker) → Nat → Option Sticker
  | [], _ => none
  | (k, v) :: rest, nr => if k = nr then some v else dictLookup rest nr

/-- sticker_auto_assignment: replace sticker numbers in an eligibility listing
with real sticker objects.  A number set is iterated as a list. -/
def sticker_auto_assignment (db : DB) (listing : List (GradeApplication × List Nat)) :
    List (GradeApplication × List Sticker) :=
  let sticker_nrs := ((listing.map Prod.snd).flatten).dedup
  let stickers_by_nr :=
    stickersByNr (db.stickers.filter (fun s => decide (s.nr ∈ sticker_nrs)))
  listing.map (fun item =>
    (item.1, item.2.filterMap (fun nr => dictLookup stickers_by_nr nr)))

/-- The specification resolution of one sticker number: the matching sticker
entity, the last one in database order when numbers repeat; none when the
number matches no sticker. -/
def resolveNr (db : DB) (nr : Nat) : Option Sticker :=
  (db.stickers.filter (fun s => decide (s.nr = nr))).getLast?

/-- sync_sticker_assignment: sticker.uses.add(application) for every resolved
pair.  The many to many table is the set of (sticker pk, application pk)
pairs; add inserts the pair when absent and is a no-op otherwise. -/
def sync_sticker_assignment (uses : Finset (Nat × Nat))
    (listing : List (GradeApplication × List Sticker)) : Finset (Nat × Nat) :=
  listing.foldl
    (fun acc item => item.2.foldl (fun acc2 st => insert (st.pk, item.1.pk) acc2) acc)
    uses

/-- All pairs recorded by one pass of sync_sticker_assignment. -/
def listingPairs (listing : List (GradeApplication × List Sticker)) : Finset (Nat × Nat) :=
  ((listing.map (fun item => item.2.map (fun st => (st.pk, item.1.pk)))).flatten).toFinset

/-! ### Concrete fixtures -/

/-- A series of grade 1 with no attached task file and a future deadline. -/
def seriesNoFile : GradeSeries := GradeSeries.mk 5 1 1 10 none false

/-- An existing grade covering days 50 to 60. -/
def gradeInner : Grade := Grade.mk 1 "2019/2020" 50 60

/-- A new grade covering days 0 to 100, strictly containing gradeInner. -/
def gradeOuter : Grade := Grade.mk 2 "2020/2021" 0 100

/-- First series of the fixture grade for the spurious key scenario. -/
def seriesOne3 : GradeSeries := GradeSeries.mk 10 1 1 100 (some "s1.pdf") false

/-- Second series of the fixture grade; it has no tasks of its own. -/
def seriesTwo3 : GradeSeries := GradeSeries.mk 20 1 2 200 (some "s2.pdf") false

def task3 : Task := Task.mk 100 10 "u1" 5

def app3 : GradeApplication := GradeApplication.mk 1000 1

/-- Grade 1 with one application and one scored submission for the task of the
first series. -/
def db3 : DB :=
  DB.mk [Grade.mk 1 "2019/2020" 0 365] [seriesOne3, seriesTwo3] [task3] [app3]
    [TaskSolutionSubmission.mk 1000 100 (some 300)] []

def s1M : GradeSeries := GradeSeries.mk 10 1 1 100 (some "a.pdf") false

def s2M : GradeSeries := GradeSeries.mk 20 1 2 200 (some "b.pdf") false

def t1M : Task := Task.mk 100 10 "u1" 5

def t2M : Task := Task.mk 200 20 "u2" 7

def a1M : GradeApplication := GradeApplication.mk 1000 1

def a2M : GradeApplication := GradeApplication.mk 2000 1

/-- A grade with two series, one task in each, two applications, two scored
submissions by the first application and one unscored by the second. -/
def dbMain : DB :=
  DB.mk [Grade.mk 1 "2019/2020" 0 365] [s1M, s2M] [t1M, t2M] [a1M, a2M]
    [TaskSolutionSubmission.mk 1000 100 (some 300),
     TaskSolutionSubmission.mk 1000 200 (some 400),
     TaskSolutionSubmission.mk 2000 200 none] []

/-- The row of the first application in the results of the second series of
dbMain. -/
def rowMain : ScoreRow := ScoreRow.mk a1M [(some 200, some 400), (none, some 300)] 700

def appTen : GradeApplication := GradeApplication.mk 3000 1

def seriesTen : GradeSeries := GradeSeries.mk 30 1 1 100 (some "c.pdf") false

/-- A grade with one application, one series and no tasks at all. -/
def dbTen : DB := DB.mk [Grade.mk 1 "2019/2020" 0 365] [seriesTen] [] [appTen] [] []

def sEarly : GradeSeries := GradeSeries.mk 1 1 1 50 (some "a.pdf") false

def sLate : GradeSeries := GradeSeries.mk 2 1 2 80 (some "b.pdf") false

/-- Two series of grade 1, both accepting, with distinct deadlines. -/
def db9 : DB := DB.mk [] [sEarly, sLate] [] [] [] []

def grade9 : Grade := Grade.mk 1 "2019/2020" 0 100

def app8 : GradeApplication := GradeApplication.mk 1 1

def sticker8 : Sticker := Sticker.mk 7 3

/-! ### Theorems -/

/-- Anything in the accumulator survives the scoring_dict fold. -/
theorem initStep_fold_mono (tasks : List Task) :
    ∀ (apps : List GradeApplication) (d : List ScoreRow) (r : ScoreRow),
      r ∈ d → r ∈ apps.foldl (initStep tasks) d := by
  intro apps
  induction apps with
  | nil => intro d r hr; exact hr
  | cons a rest ih =>
    intro d r hr
    rw [List.foldl_cons]
    apply ih
    unfold initStep
    by_cases hc : d.any (fun r0 => decide (r0.app.pk = a.pk)) = true
    · rw [if_pos hc]; exact hr
    · rw [if_neg hc]; exact List.mem_append_left _ hr

/-- Every row produced by the scoring_dict fold is either from the accumulator
or a fresh initial row of one of the applications. -/
theorem initStep_fold_mem (tasks : List Task) :
    ∀ (apps : List GradeApplication) (d : List ScoreRow) (r : ScoreRow),
      r ∈ apps.foldl (initStep tasks) d →
      r ∈ d ∨ ∃ a, a ∈ apps ∧ r = initRow tasks a := by
  intro apps
  induction apps with
  | nil => intro d r hr; exact Or.inl hr
  | cons a rest ih =>
    intro d r hr
    rw [List.foldl_cons] at hr
    rcases ih _ r hr with h | ⟨a0, ha0, rfl⟩
    · unfold initStep at h
      by_cases hc : d.any (fun r0 => decide (r0.app.pk = a.pk)) = true
      · rw [if_pos hc] at h
        exact Or.inl h
      · rw [if_neg hc] at h
        rcases List.mem_append.mp h with h1 | h2
        · exact Or.inl h1
        · rcases List.mem_singleton.mp h2 with rfl
          exact Or.inr ⟨a, List.mem_cons_self a rest, rfl⟩
    · exact Or.inr ⟨a0, List.mem_cons_of_mem _ ha0, rfl⟩

/-- For every application fed to the scoring_dict fold, some row carries its
primary key. -/
theorem initStep_fold_covers (tasks : List Task) :
    ∀ (apps : List GradeApplication) (d : List ScoreRow) (a : GradeApplication),
      a ∈ apps →
      ∃ r, r ∈ apps.foldl (initStep tasks) d ∧ r.app.pk = a.pk := by
  intro apps
  induction apps with
  | nil => intro d a ha; exact absurd ha (List.not_mem_nil a)
  | cons a1 rest ih =>
    intro d a ha
    rw [List.foldl_cons]
    rcases List.mem_cons.mp ha with rfl | hmem
    · have hstep : ∃ r, r ∈ initStep tasks d a ∧ r.app.pk = a.pk := by
        unfold initStep
        by_cases hc : d.any (fun r0 => decide (r0.app.pk = a.pk)) = true
        · rcases List.any_eq_true.mp hc with ⟨r0, hr0, hpk⟩
          exact ⟨r0, by rw [if_pos hc]; exact hr0, of_decide_eq_true hpk⟩
        · refine ⟨initRow tasks a, ?_, rfl⟩
          rw [if_neg hc]
          exact List.mem_append_right _ (List.mem_singleton.mpr rfl)
      rcases hstep with ⟨r, hr, hpk⟩
      exact ⟨r, initStep_fold_mono tasks rest _ r hr, hpk⟩
    · exact ih _ a hmem

/-- The rows of the initial scoring_dict: total 0, an application of the given
list, and one unscored cell per task of the series. -/
theorem dictInit_mem (tasks : List Task) (apps : List GradeApplication) (r : ScoreRow)
    (hr : r ∈ dictInit tasks apps) :
    r.total = 0 ∧ r.app ∈ apps := by
  rcases initStep_fold_mem tasks apps [] r hr with h | ⟨a, ha, rfl⟩
  · exact absurd h (List.not_mem_nil r)
  · exact ⟨rfl, ha⟩

theorem dictInit_covers (tasks : List Task) (apps : List GradeApplication)
    (a : GradeApplication) (ha : a ∈ apps) :
    ∃ r, r ∈ dictInit tasks apps ∧ r.app.pk = a.pk :=
  initStep_fold_covers tasks apps [] a ha

theorem codeTotal_nil (apps : List GradeApplication) (p : Nat) :
    codeTotal apps [] p = 0 := rfl

theorem codeTotal_cons (apps : List GradeApplication) (s : TaskSolutionSubmission)
    (ss : List TaskSolutionSubmission) (p : Nat) :
    codeTotal apps (s :: ss) p
      = (if hitsApp apps p s then scoreOr0 s.score else 0) + codeTotal apps ss p := by
  unfold codeTotal
  rw [List.filter_cons]
  by_cases h : hitsApp apps p s = true
  · rw [if_pos h, if_pos h, List.map_cons, List.sum_cons]
  · rw [if_neg h, if_neg h, zero_add]

/-- The accumulated effect of the submission loop on applications and totals:
each row keeps its application and gains the summed scores of the submissions
that hit its primary key. -/
theorem foldl_step_totals (apps : List GradeApplication) (tasks : List Task) :
    ∀ (ss : List TaskSolutionSubmission) (d : List ScoreRow),
      (ss.foldl (stepSubmission apps tasks) d).map (fun r => (r.app, r.total))
        = d.map (fun r => (r.app, r.total + codeTotal apps ss r.app.pk)) := by
  intro ss
  induction ss with
  | nil =>
    intro d
    apply List.map_congr_left
    intro r _
    rw [codeTotal_nil, add_zero]
  | cons s ss ih =>
    intro d
    rw [List.foldl_cons, ih]
    cases hfa : apps.find? (fun a => decide (a.pk = s.application)) with
    | none =>
      have hstep : stepSubmission apps tasks d s = d := by
        unfold stepSubmission
        rw [hfa]
      rw [hstep]
      apply List.map_congr_left
      intro r _
      have hhit : hitsApp apps r.app.pk s = false := by
        unfold hitsApp
        rw [hfa]
      rw [codeTotal_cons, hhit]
      simp only [Bool.false_eq_true, if_false, zero_add]
    | some a =>
      have hstep : stepSubmission apps tasks d s
          = d.map (fun r =>
              if r.app.pk = a.pk then
                ScoreRow.mk r.app
                  (dictInsert ((tasks.find? (fun t => decide (t.pk = s.task))).map Task.pk)
                    s.score r.by_tasks)
                  (r.total + scoreOr0 s.score)
              else r) := by
        unfold stepSubmission
        rw [hfa]
      rw [hstep, List.map_map]
      apply List.map_congr_left
      intro r _
      have hhit : hitsApp apps r.app.pk s = decide (a.pk = r.app.pk) := by
        unfold hitsApp
        rw [hfa]
      by_cases hc : r.app.pk = a.pk
      · have hhit2 : hitsApp apps r.app.pk s = true := by
          rw [hhit]; exact decide_eq_true hc.symm
        simp only [Function.comp_apply, if_pos hc, codeTotal_cons, hhit2, if_true]
        rw [add_assoc]
      · have hhit2 : hitsApp apps r.app.pk s = false := by
          rw [hhit]
          exact decide_eq_false (fun he => hc he.symm)
        simp only [Function.comp_apply, if_neg hc, codeTotal_cons, hhit2,
          Bool.false_eq_true, if_false, zero_add]

/-- On a grade consistent submission, the double filter of calculate_results
restricted to the pk of an existing application coincides with the
specification condition for counting the submission. -/
theorem hits_and_scope_eq_counts (db : DB) (S : GradeSeries) (p : Nat)
    (hp : ∃ a, a ∈ db.applications ∧ a.pk = p)
    (s : TaskSolutionSubmission)
    (hcons : submissionGradeConsistent db s = true) :
    (hitsApp (db.applications.filter (fun a => decide (a.grade = S.grade))) p s
        && submissionInScope db S s)
      = submissionCountsFor db S p s := by
  cases hft : db.tasks.find? (fun t => decide (t.pk = s.task)) with
  | none =>
    simp [submissionInScope, submissionCountsFor, hft]
  | some t =>
    cases hfs : db.series.find? (fun ser => decide (ser.pk = t.series)) with
    | none =>
      simp [submissionInScope, submissionCountsFor, taskUpTo, hft, hfs]
    | some ser =>
      cases hfa : db.applications.find? (fun a => decide (a.pk = s.application)) with
      | none =>
        have hnp : ¬(s.application = p) := by
          intro he
          rcases hp with ⟨a0, ha0, hpk⟩
          have h2 := List.find?_eq_none.mp hfa a0 ha0
          exact h2 (decide_eq_true (by rw [hpk, he]))
        simp [submissionInScope, submissionCountsFor, hfa, hnp]
      | some a0 =>
        have hapk : a0.pk = s.application := by
          have h1 := List.find?_some hfa
          simpa using h1
        have ha0mem : a0 ∈ db.applications := List.mem_of_find?_eq_some hfa
        have hser : ser.grade = a0.grade := by
          simp only [submissionGradeConsistent, hfa, hft, hfs, decide_eq_true_eq] at hcons
          exact hcons
        by_cases hg : a0.grade = S.grade
        · have hmemf : a0 ∈ db.applications.filter (fun a => decide (a.grade = S.grade)) :=
            List.mem_filter.mpr ⟨ha0mem, decide_eq_true hg⟩
          have hfsome : ((db.applications.filter (fun a => decide (a.grade = S.grade))).find?
              (fun a => decide (a.pk = s.application))).isSome = true := by
            rw [List.find?_isSome]
            exact ⟨a0, hmemf, decide_eq_true hapk⟩
          rcases Option.isSome_iff_exists.mp hfsome with ⟨a1, hfa1⟩
          have ha1pk : a1.pk = s.application := by
            have h1 := List.find?_some hfa1
            simpa using h1
          simp only [hitsApp, submissionInScope, submissionCountsFor, taskUpTo,
            hfa, hft, hfs, hfa1, ha1pk, hser]
        · have hFA : decide (a0.grade = S.grade) = false := decide_eq_false hg
          have hRG : decide (ser.grade = S.grade) = false := by
            rw [hser]; exact decide_eq_false hg
          simp [hitsApp, submissionInScope, submissionCountsFor, taskUpTo,
            hfa, hft, hfs, hFA, hRG]

/-- On a grade consistent database, the amount accumulated by the submission
loop for a listed application equals the specification running total. -/
theorem codeTotal_eq_specTotal (db : DB) (S : GradeSeries) (p : Nat)
    (hwf : ∀ s, s ∈ db.submissions → submissionGradeConsistent db s = true)
    (hp : ∃ a, a ∈ db.applications ∧ a.pk = p) :
    codeTotal (db.applications.filter (fun a => decide (a.grade = S.grade)))
        (db.submissions.filter (submissionInScope db S)) p
      = specTotal db S p := by
  unfold codeTotal specTotal
  rw [List.filter_filter]
  have hlists :
      db.submissions.filter
          (fun s => hitsApp (db.applications.filter (fun a => decide (a.grade = S.grade))) p s
            && submissionInScope db S s)
        = db.submissions.filter (submissionCountsFor db S p) :=
    List.filter_congr (fun s hs => hits_and_scope_eq_counts db S p hp s (hwf s hs))
  rw [hlists]

/-- C4: for every Series S and every row of the listing of
calculate_results, the cumulative total equals the sum of the scores of the
scored submissions of that application for tasks of the grade of S with
series ordinal at most the ordinal of S, an unscored or missing submission
contributing 0.  The database is assumed grade consistent, see
submissionGradeConsistent. -/
theorem C4_running_total (db : DB) (S : GradeSeries)
    (hwf : ∀ s, s ∈ db.submissions → submissionGradeConsistent db s = true) :
    ∀ r, r ∈ (calculate_results db S).listing → r.total = specTotal db S r.app.pk := by
  intro r hr
  simp only [calculate_results] at hr
  have hr2 : r ∈ (db.submissions.filter (submissionInScope db S)).foldl
      (stepSubmission (db.applications.filter (fun a => decide (a.grade = S.grade)))
        (db.tasks.filter (fun t => decide (t.series = S.pk))))
      (dictInit (db.tasks.filter (fun t => decide (t.series = S.pk)))
        (db.applications.filter (fun a => decide (a.grade = S.grade)))) :=
    (List.perm_insertionSort _ _).mem_iff.mp hr
  have hpair := List.mem_map_of_mem (fun r => (r.app, r.total)) hr2
  rw [foldl_step_totals] at hpair
  rcases List.mem_map.mp hpair with ⟨r0, hr0, heq⟩
  have happ : r0.app = r.app := congrArg Prod.fst heq
  have htot : r0.total
      + codeTotal (db.applications.filter (fun a => decide (a.grade = S.grade)))
        (db.submissions.filter (submissionInScope db S)) r0.app.pk
      = r.total := congrArg Prod.snd heq
  rcases dictInit_mem _ _ r0 hr0 with ⟨hz, hmem⟩
  rcases List.mem_filter.mp hmem with ⟨hmemdb, _⟩
  have hp : ∃ a, a ∈ db.applications ∧ a.pk = r.app.pk :=
    ⟨r0.app, hmemdb, by rw [happ]⟩
  rw [← htot, hz, zero_add, happ]
  exact codeTotal_eq_specTotal db S r.app.pk hwf hp

/-- The theorem of C4 evaluated on dbMain: the first application scored 3.00
and 4.00 in the two series and its listed running total is 7.00. -/
theorem C4_running_total_witness :
    rowMain ∈ (calculate_results dbMain s2M).listing ∧
      rowMain.total = specTotal dbMain s2M rowMain.app.pk :=
  ⟨by decide, C4_running_total dbMain s2M (by decide) rowMain (by decide)⟩

/-- C1: the claim says accepts_solution_submissions is true only when a task
file attachment is present, so a Series without an attachment reports false
even with a future deadline.  The code disagrees: seriesNoFile has no task
file and a future deadline, yet accepts_solution_submissions returns true,
because the Python is-not-None test on a Django FileField never fails.  The
specification reading specAcceptsSubmissions is false on the same input. -/
theorem C1_accepts_without_file :
    accepts_solution_submissions seriesNoFile 0 = true ∧
      specAcceptsSubmissions seriesNoFile 0 = false ∧
      seriesNoFile.task_file = none ∧ 0 < seriesNoFile.submission_deadline := by
  decide

/-- C2: the claim says every overlap between grade date ranges, including one
range strictly containing the other, is rejected by validation.  The code
disagrees: gradeOuter strictly contains gradeInner, so the two ranges overlap,
yet full_clean raises nothing, because the overlap query only tests whether an
endpoint of the new grade lies inside an existing range. -/
theorem C2_containment_not_rejected :
    full_clean [gradeInner] gradeOuter = Except.ok () ∧
      rangesOverlap gradeInner gradeOuter := by
  exact ⟨rfl, by decide, by decide⟩

/-- C3: the claim says the per task score mapping of every listing row has
exactly the tasks of the series itself as keys.  The code disagrees: in db3
the grade has a scored submission for task3 of the first series, and the
second series has no tasks of its own, yet its results carry a by_tasks
mapping with the spurious key none, the failed _find_task lookup, holding that
earlier score. -/
theorem C3_spurious_none_key :
    (calculate_results db3 seriesTwo3).listing
        = [ScoreRow.mk app3 [(none, some 300)] 300] ∧
      db3.tasks.filter (fun t => decide (t.series = seriesTwo3.pk)) = [] := by
  decide

/-- C6: the listing of calculate_results is sorted by cumulative total in
descending order: every adjacent pair of rows has the later total at most the
earlier one (the proof gives the pairwise property, which implies the
adjacent one). -/
theorem C6_listing_sorted_desc (db : DB) (S : GradeSeries) :
    List.Chain' (fun r1 r2 => r2.total ≤ r1.total) (calculate_results db S).listing := by
  haveI : IsTotal ScoreRow (fun r1 r2 => r2.total ≤ r1.total) :=
    ⟨fun a b => le_total b.total a.total⟩
  haveI : IsTrans ScoreRow (fun r1 r2 => r2.total ≤ r1.total) :=
    ⟨fun a b c h1 h2 => le_trans h2 h1⟩
  exact List.Pairwise.chain' (List.sorted_insertionSort _ _)

/-- C5 fails as stated on the empty task set: on dbTen there is no task at
all, the claimed sum of points is the number 0, but the aggregate reports the
absent value none. -/
theorem C5_counterexample_empty :
    (calculate_results dbTen seriesTen).max_score
      ≠ some (specMaxScore dbTen seriesTen) := by
  decide

/-- C5 amended: max_score is independent of which applications and
submissions exist, and equals the sum of points over the tasks of the grade
of S with series ordinal at most the ordinal of S whenever that task set is
nonempty; when the task set is empty it is the absent value none, not 0. -/
theorem C5_max_score (db : DB) (S : GradeSeries) (apps : List GradeApplication)
    (subs : List TaskSolutionSubmission) :
    (calculate_results
          (DB.mk db.grades db.series db.tasks apps subs db.stickers) S).max_score
        = (calculate_results db S).max_score
      ∧ (tasksUpTo db S ≠ [] →
          (calculate_results db S).max_score = some (specMaxScore db S))
      ∧ (tasksUpTo db S = [] → (calculate_results db S).max_score = none) := by
  refine ⟨rfl, ?_, ?_⟩
  · intro hne
    have hne2 : ¬(((tasksUpTo db S).map Task.points).isEmpty = true) := by
      intro hemp
      rw [List.isEmpty_iff] at hemp
      exact hne (List.map_eq_nil_iff.mp hemp)
    show maxScore db S = some (specMaxScore db S)
    unfold maxScore specMaxScore
    rw [if_neg hne2]
  · intro he
    show maxScore db S = none
    unfold maxScore
    rw [he]
    rfl

/-- The amended C5 theorem evaluated on dbMain: the two tasks up to the
second series are worth 5 and 7 points and max_score reports their sum. -/
theorem C5_max_score_witness :
    (calculate_results dbMain s2M).max_score = some (specMaxScore dbMain s2M) :=
  (C5_max_score dbMain s2M dbMain.applications dbMain.submissions).2.1 (by decide)

/-- On a grade consistent database with no tasks up to the ordinal of S, no
submission passes the filter of calculate_results. -/
theorem no_scope_of_no_tasks (db : DB) (S : GradeSeries)
    (hwf : ∀ s, s ∈ db.submissions → submissionGradeConsistent db s = true)
    (hempty : tasksUpTo db S = []) :
    db.submissions.filter (submissionInScope db S) = [] := by
  rw [List.filter_eq_nil_iff]
  intro s hs hscope
  have hcons := hwf s hs
  unfold submissionInScope at hscope
  rcases Bool.and_eq_true_iff.mp hscope with ⟨hA, hB⟩
  cases hfa : db.applications.find? (fun a => decide (a.pk = s.application)) with
  | none => simp [hfa] at hA
  | some a0 =>
    simp only [hfa, decide_eq_true_eq] at hA
    cases hft : db.tasks.find? (fun t => decide (t.pk = s.task)) with
    | none => simp [hft] at hB
    | some t =>
      cases hfs : db.series.find? (fun ser => decide (ser.pk = t.series)) with
      | none => simp [hft, hfs] at hB
      | some ser =>
        simp only [hft, hfs, decide_eq_true_eq] at hB
        have hser : ser.grade = a0.grade := by
          simp only [submissionGradeConsistent, hfa, hft, hfs, decide_eq_true_eq] at hcons
          exact hcons
        have hup : taskUpTo db S t = true := by
          unfold taskUpTo
          rw [hfs]
          exact Bool.and_eq_true_iff.mpr
            ⟨decide_eq_true (by rw [hser, hA]), decide_eq_true hB⟩
        have htmem : t ∈ tasksUpTo db S :=
          List.mem_filter.mpr ⟨List.mem_of_find?_eq_some hft, hup⟩
        rw [hempty] at htmem
        exact absurd htmem (List.not_mem_nil t)

/-- C10: when no task of the grade of S has series ordinal at most the
ordinal of S, calculate_results reports max_score none, the absent value of
the empty aggregate, not 0, while the listing still carries a row with total
0 for every application of the grade.  The database is assumed grade
consistent, see submissionGradeConsistent. -/
theorem C10_empty_aggregate (db : DB) (S : GradeSeries)
    (hwf : ∀ s, s ∈ db.submissions → submissionGradeConsistent db s = true)
    (hempty : tasksUpTo db S = []) :
    (calculate_results db S).max_score = none ∧
      ∀ a, a ∈ db.applications → a.grade = S.grade →
        ∃ r, r ∈ (calculate_results db S).listing ∧ r.app.pk = a.pk ∧ r.total = 0 := by
  constructor
  · show maxScore db S = none
    unfold maxScore
    rw [hempty]
    rfl
  · intro a hmem hgr
    have hnosubs := no_scope_of_no_tasks db S hwf hempty
    have hamem : a ∈ db.applications.filter (fun a0 => decide (a0.grade = S.grade)) :=
      List.mem_filter.mpr ⟨hmem, decide_eq_true hgr⟩
    rcases dictInit_covers (db.tasks.filter (fun t => decide (t.series = S.pk)))
        (db.applications.filter (fun a0 => decide (a0.grade = S.grade))) a hamem
      with ⟨r, hr, hpk⟩
    rcases dictInit_mem _ _ r hr with ⟨hz, _⟩
    refine ⟨r, ?_, hpk, hz⟩
    have hlist : (calculate_results db S).listing
        = List.insertionSort (fun r1 r2 => r2.total ≤ r1.total)
            (dictInit (db.tasks.filter (fun t => decide (t.series = S.pk)))
              (db.applications.filter (fun a0 => decide (a0.grade = S.grade)))) := by
      simp only [calculate_results, hnosubs, List.foldl_nil]
    rw [hlist]
    exact (List.perm_insertionSort _ _).mem_iff.mpr hr

/-- The theorem of C10 evaluated on dbTen, a grade with an application and no
tasks: the reported max_score is the absent value. -/
theorem C10_empty_aggregate_witness :
    (calculate_results dbTen seriesTen).max_score = none :=
  (C10_empty_aggregate dbTen seriesTen (by decide) (by decide)).1

/-- Membership in the filtered series list of get_current_series. -/
theorem mem_accepting_filter (db : DB) (g : Grade) (now : Int) (s : GradeSeries) :
    s ∈ (db.series.filter (fun s0 => decide (s0.grade = g.pk))).filter
        (fun s0 => accepts_solution_submissions s0 now)
      ↔ s ∈ db.series ∧ s.grade = g.pk ∧ accepts_solution_submissions s now = true := by
  constructor
  · intro h
    rcases List.mem_filter.mp h with ⟨h1, h2⟩
    rcases List.mem_filter.mp h1 with ⟨h3, h4⟩
    exact ⟨h3, of_decide_eq_true h4, h2⟩
  · intro h
    rcases h with ⟨h3, h4, h2⟩
    exact List.mem_filter.mpr ⟨List.mem_filter.mpr ⟨h3, decide_eq_true h4⟩, h2⟩

/-- C9: get_current_series returns none exactly when no series of the grade
accepts solution submissions, and otherwise returns a series of the grade
that accepts submissions and whose submission deadline is at most the
deadline of every accepting series of the grade. -/
theorem C9_current_series (db : DB) (g : Grade) (now : Int) :
    (get_current_series db g now = none ↔
        ∀ s, s ∈ db.series → s.grade = g.pk →
          accepts_solution_submissions s now = false) ∧
      ∀ s, get_current_series db g now = some s →
        s ∈ db.series ∧ s.grade = g.pk ∧
          accepts_solution_submissions s now = true ∧
          ∀ s1, s1 ∈ db.series → s1.grade = g.pk →
            accepts_solution_submissions s1 now = true →
            s.submission_deadline ≤ s1.submission_deadline := by
  haveI : IsTotal GradeSeries (fun s1 s2 => s1.submission_deadline ≤ s2.submission_deadline) :=
    ⟨fun a b => le_total a.submission_deadline b.submission_deadline⟩
  haveI : IsTrans GradeSeries (fun s1 s2 => s1.submission_deadline ≤ s2.submission_deadline) :=
    ⟨fun a b c h1 h2 => le_trans h1 h2⟩
  constructor
  · unfold get_current_series
    rw [List.head?_eq_none_iff]
    constructor
    · intro hnil s hs hg
      have hperm := List.perm_insertionSort
        (fun s1 s2 => s1.submission_deadline ≤ s2.submission_deadline)
        ((db.series.filter (fun s0 => decide (s0.grade = g.pk))).filter
          (fun s0 => accepts_solution_submissions s0 now))
      rw [hnil] at hperm
      have hfnil := hperm.symm.eq_nil
      cases hb : accepts_solution_submissions s now with
      | false => rfl
      | true =>
        have hmem := (mem_accepting_filter db g now s).mpr ⟨hs, hg, hb⟩
        rw [hfnil] at hmem
        exact absurd hmem (List.not_mem_nil s)
    · intro hall
      have hfnil : (db.series.filter (fun s0 => decide (s0.grade = g.pk))).filter
          (fun s0 => accepts_solution_submissions s0 now) = [] := by
        rw [List.filter_eq_nil_iff]
        intro s hsf hacc
        rcases List.mem_filter.mp hsf with ⟨h3, h4⟩
        rw [hall s h3 (of_decide_eq_true h4)] at hacc
        exact absurd hacc (by simp)
      rw [hfnil]
      rfl
  · intro s hsome
    unfold get_current_series at hsome
    cases hcase : List.insertionSort
        (fun s1 s2 => s1.submission_deadline ≤ s2.submission_deadline)
        ((db.series.filter (fun s0 => decide (s0.grade = g.pk))).filter
          (fun s0 => accepts_solution_submissions s0 now)) with
    | nil =>
      rw [hcase] at hsome
      exact absurd hsome (by simp)
    | cons x tail =>
      rw [hcase] at hsome
      have hx : x = s := by
        have := hsome
        simp only [List.head?] at this
        exact Option.some.inj this
      subst hx
      have hperm := List.perm_insertionSort
        (fun s1 s2 => s1.submission_deadline ≤ s2.submission_deadline)
        ((db.series.filter (fun s0 => decide (s0.grade = g.pk))).filter
          (fun s0 => accepts_solution_submissions s0 now))
      have hsorted := List.sorted_insertionSort
        (fun s1 s2 => s1.submission_deadline ≤ s2.submission_deadline)
        ((db.series.filter (fun s0 => decide (s0.grade = g.pk))).filter
          (fun s0 => accepts_solution_submissions s0 now))
      rw [hcase] at hperm hsorted
      have hsmem : x ∈ (db.series.filter (fun s0 => decide (s0.grade = g.pk))).filter
          (fun s0 => accepts_solution_submissions s0 now) :=
        hperm.mem_iff.mp (List.mem_cons_self x tail)
      rcases (mem_accepting_filter db g now x).mp hsmem with ⟨h3, h4, h2⟩
      refine ⟨h3, h4, h2, ?_⟩
      intro s1 hs1 hg1 hacc1
      have hs1mem := (mem_accepting_filter db g now s1).mpr ⟨hs1, hg1, hacc1⟩
      rcases List.mem_cons.mp (hperm.mem_iff.mpr hs1mem) with h | h
      · rw [h]
      · exact List.rel_of_sorted_cons hsorted s1 h

/-- The theorem of C9 evaluated on db9: with two accepting series the one
with the earlier deadline is current and its deadline bounds the other. -/
theorem C9_current_series_witness :
    get_current_series db9 grade9 0 = some sEarly ∧
      accepts_solution_submissions sEarly 0 = true := by
  refine ⟨by decide, ?_⟩
  exact ((C9_current_series db9 grade9 0).2 sEarly (by decide)).2.2.1

/-- Looking up a key after one dict assignment. -/
theorem dictLookup_insertSticker (d : List (Nat × Sticker)) (s : Sticker) (nr : Nat) :
    dictLookup (dictInsertSticker d s) nr
      = if s.nr = nr then some s else dictLookup d nr := by
  induction d with
  | nil =>
    unfold dictInsertSticker dictLookup
    by_cases h : s.nr = nr
    · rw [if_pos h, if_pos h]
    · rw [if_neg h, if_neg h]
      rfl
  | cons kv rest ih =>
    obtain ⟨k, v⟩ := kv
    unfold dictInsertSticker
    by_cases hk : k = s.nr
    · rw [if_pos hk]
      unfold dictLookup
      by_cases h : s.nr = nr
      · rw [if_pos h, if_pos h]
      · rw [if_neg h, if_neg h, if_neg (fun he => h (hk ▸ he : s.nr = nr))]
    · rw [if_neg hk]
      unfold dictLookup
      by_cases hknr : k = nr
      · have hsn : ¬(s.nr = nr) := fun he => hk (by rw [hknr, he])
        rw [if_pos hknr, if_neg hsn, if_pos hknr]
      · rw [if_neg hknr, ih, if_neg hknr]

/-- The last element of a cons in terms of Option.or. -/
theorem getLast?_cons_or (a : α) (l : List α) :
    (a :: l).getLast? = l.getLast?.or (some a) := by
  induction l generalizing a with
  | nil => rfl
  | cons b t ih =>
    rw [List.getLast?_cons_cons, ih b, Option.or_assoc]
    rfl

/-- The dictionary built from a sticker list resolves a number to the last
matching sticker, falling back to the accumulator. -/
theorem stickersByNr_fold_lookup (nr : Nat) :
    ∀ (l : List Sticker) (d : List (Nat × Sticker)),
      dictLookup (l.foldl dictInsertSticker d) nr
        = ((l.filter (fun s => decide (s.nr = nr))).getLast?).or (dictLookup d nr) := by
  intro l
  induction l with
  | nil =>
    intro d
    rw [List.filter_nil]
    rfl
  | cons s rest ih =>
    intro d
    rw [List.foldl_cons, ih, dictLookup_insertSticker, List.filter_cons]
    by_cases h : s.nr = nr
    · rw [if_pos h, if_pos (decide_eq_true h), getLast?_cons_or, Option.or_assoc]
      have habs : (Option.some s).or (dictLookup d nr) = some s := rfl
      rw [habs]
    · rw [if_neg h, if_neg (by simpa using h)]

/-- C7: sticker_auto_assignment keeps the listing length and application
order and replaces each sticker number of each application by the matching
sticker entity, silently dropping the numbers that match no sticker. -/
theorem C7_resolution (db : DB) (listing : List (GradeApplication × List Nat)) :
    sticker_auto_assignment db listing
      = listing.map (fun item => (item.1, item.2.filterMap (resolveNr db))) := by
  unfold sticker_auto_assignment
  apply List.map_congr_left
  intro item hitem
  have hpair : (item.1,
      item.2.filterMap
        (fun nr => dictLookup (stickersByNr (db.stickers.filter
          (fun s => decide (s.nr ∈ ((listing.map Prod.snd).flatten).dedup)))) nr))
      = (item.1, item.2.filterMap (resolveNr db)) := by
    congr 1
    apply List.filterMap_congr
    intro nr hnr
    have hmem : nr ∈ ((listing.map Prod.snd).flatten).dedup := by
      rw [List.mem_dedup, List.mem_flatten]
      exact ⟨item.2, List.mem_map_of_mem Prod.snd hitem, hnr⟩
    unfold stickersByNr
    rw [stickersByNr_fold_lookup]
    have hnil : dictLookup [] nr = none := rfl
    rw [hnil, Option.or_none]
    unfold resolveNr
    congr 1
    rw [List.filter_filter]
    apply List.filter_congr
    intro s _
    by_cases h : s.nr = nr
    · rw [decide_eq_true h, Bool.true_and, h]
      exact decide_eq_true hmem
    · rw [decide_eq_false h, Bool.false_and]
  exact hpair

/-- The union shape of the inner fold of sync_sticker_assignment. -/
theorem sync_inner_fold (apk : Nat) :
    ∀ (sts : List Sticker) (acc : Finset (Nat × Nat)),
      sts.foldl (fun acc2 st => insert (st.pk, apk) acc2) acc
        = acc ∪ (sts.map (fun st => (st.pk, apk))).toFinset := by
  intro sts
  induction sts with
  | nil => intro acc; simp
  | cons st rest ih =>
    intro acc
    rw [List.foldl_cons, ih, List.map_cons, List.toFinset_cons]
    ext x
    simp only [Finset.mem_union, Finset.mem_insert]
    tauto

/-- sync_sticker_assignment adds exactly the pairs of the listing to the
association set. -/
theorem sync_fold_union :
    ∀ (listing : List (GradeApplication × List Sticker)) (uses : Finset (Nat × Nat)),
      sync_sticker_assignment uses listing = uses ∪ listingPairs listing := by
  intro listing
  induction listing with
  | nil =>
    intro uses
    simp [sync_sticker_assignment, listingPairs]
  | cons item rest ih =>
    intro uses
    have h1 : sync_sticker_assignment uses (item :: rest)
        = sync_sticker_assignment
            (item.2.foldl (fun acc2 st => insert (st.pk, item.1.pk) acc2) uses) rest := rfl
    rw [h1, ih, sync_inner_fold]
    unfold listingPairs
    rw [List.map_cons, List.flatten_cons, List.toFinset_append, Finset.union_assoc]

/-- C8: sync_sticker_assignment records every pair of the resolved listing in
the sticker award set, and a second invocation on the same listing leaves the
association set exactly as after the first one. -/
theorem C8_sync_idempotent (uses : Finset (Nat × Nat))
    (listing : List (GradeApplication × List Sticker)) :
    sync_sticker_assignment (sync_sticker_assignment uses listing) listing
        = sync_sticker_assignment uses listing
      ∧ ∀ item, item ∈ listing → ∀ st, st ∈ item.2 →
          (st.pk, item.1.pk) ∈ sync_sticker_assignment uses listing := by
  constructor
  · rw [sync_fold_union, sync_fold_union, Finset.union_assoc, Finset.union_self]
  · intro item hitem st hst
    rw [sync_fold_union]
    apply Finset.mem_union_right
    unfold listingPairs
    rw [List.mem_toFinset, List.mem_flatten]
    exact ⟨item.2.map (fun st0 => (st0.pk, item.1.pk)),
      List.mem_map_of_mem (fun it => it.2.map (fun st0 => (st0.pk, it.1.pk))) hitem,
      List.mem_map_of_mem (fun st0 => (st0.pk, item.1.pk)) hst⟩

/-- The theorem of C8 evaluated on one pair: the award ends up recorded. -/
theorem C8_sync_idempotent_witness :
    (sticker8.pk, app8.pk) ∈ sync_sticker_assignment ∅ [(app8, [sticker8])] :=
  (C8_sync_idempotent ∅ [(app8, [sticker8])]).2 (app8, [sticker8]) (by decide)
    sticker8 (by decide)

end Ksicht
